import Mathlib

/-!
# Conway's Game of Life (`src/main.c`): embedding and verified properties

The program keeps one global `Grid` of `NUM_CELLS × NUM_CELLS` cells and, once
per frame, scans it row-major, drawing every alive cell and immediately calling
`game_update` on it.  The grid is embedded as a function from a row index and a
column index to a cell (`Grid.state[y][x]` is `g y x`); only indices below
`NUM_CELLS` stand for array elements.  A `Cell_t *` into the grid is the pair of
indices it points at.  `uint32_t` values are naturals, and the two `uint32_t`
operations of the program reduce modulo `2 ^ 32` explicitly.
-/

namespace CGOL

/-! ## Constants (`#define`s) -/

/-- Window width in pixels. -/
def WIDTH : Nat := 1280

/-- Window height in pixels. -/
def HEIGHT : Nat := 900

/-- Left border of the square render region. -/
def RENDER_HORI_START : Nat := (WIDTH - HEIGHT) / 2

/-- Right border of the square render region. -/
def RENDER_HORI_END : Nat := WIDTH - ((WIDTH - HEIGHT) / 2)

/-- Number of cells per row and per column. -/
def NUM_CELLS : Nat := 150

/-- Cell height, `floor(HEIGHT / NUM_CELLS)`: the quotient is an integer division,
so `floor` receives a whole number. -/
def CELL_H : Nat := HEIGHT / NUM_CELLS

/-- Cell width. -/
def CELL_W : Nat := CELL_H

/-- Colour black. -/
def BLACK : Nat := 0x00000000

/-- Colour white. -/
def WHITE : Nat := 0xFFFFFFFF

/-- Number of values of a `uint32_t`. -/
def UINT32_MOD : Nat := 4294967296

/-- Number of values of a `uint8_t`. -/
def UINT8_MOD : Nat := 256

/-! ## Data model (`Position_t`, `Cell_t`, `Grid_t`) -/

/-- A `Position_t`: two `uint32_t` coordinates. -/
structure Position where
  x : Nat
  y : Nat
  deriving DecidableEq

/-- A `Cell_t`: its position and its `uint8_t` state (`0` is alive). -/
structure Cell where
  pos : Position
  state : Nat
  deriving DecidableEq

/-- A `Grid_t`: `g y x` is `Grid.state[y][x]`. -/
abbrev Grid := Nat → Nat → Cell

/-- The `uint32_t` difference `a - b` of two `uint32_t` values. -/
def sub_u32 (a b : Nat) : Nat := (a + UINT32_MOD - b) % UINT32_MOD

/-- The `uint32_t` sum `a + b` of two `uint32_t` values. -/
def add_u32 (a b : Nat) : Nat := (a + b) % UINT32_MOD

/-- Store `v` into the `state` field of `Grid.state[y][x]`. -/
def set_state (g : Grid) (y x v : Nat) : Grid :=
  fun r c => if r = y ∧ c = x then { g r c with state := v } else g r c

/-- Store a whole cell into `Grid.state[y][x]`. -/
def set_cell (g : Grid) (y x : Nat) (cell : Cell) : Grid :=
  fun r c => if r = y ∧ c = x then cell else g r c

/-! ## `game_update` -/

/-- The index pairs (row, column) of `n0 … n7`, in the order of `arr`. -/
def neighbourIdx (pos : Position) : List (Nat × Nat) :=
  [ (sub_u32 pos.y 1 % NUM_CELLS, sub_u32 pos.x 1 % NUM_CELLS),
    (sub_u32 pos.y 1 % NUM_CELLS, pos.x % NUM_CELLS),
    (sub_u32 pos.y 1 % NUM_CELLS, add_u32 pos.x 1 % NUM_CELLS),
    (pos.y % NUM_CELLS, sub_u32 pos.x 1 % NUM_CELLS),
    (pos.y % NUM_CELLS, add_u32 pos.x 1 % NUM_CELLS),
    (add_u32 pos.y 1 % NUM_CELLS, sub_u32 pos.x 1 % NUM_CELLS),
    (add_u32 pos.y 1 % NUM_CELLS, pos.x % NUM_CELLS),
    (add_u32 pos.y 1 % NUM_CELLS, add_u32 pos.x 1 % NUM_CELLS) ]

/-- The cells `arr[0] … arr[7]` point at. -/
def arr (g : Grid) (pos : Position) : List Cell :=
  (neighbourIdx pos).map (fun rc => g rc.1 rc.2)

/-- The counting loop: `aliveNeighCtr` after the eight iterations. -/
def aliveNeighCtr (g : Grid) (pos : Position) : Nat :=
  (arr g pos).foldl (fun ctr n => if n.state = 0 then ctr + 1 else ctr) 0

/-- The call `game_update(&Grid.state[y][x])`. -/
def game_update (g : Grid) (y x : Nat) : Grid :=
  let ctr := aliveNeighCtr g (g y x).pos
  if ctr = 2 then g
  else if ctr = 3 then
    if (g y x).state = 0 then g
    else set_state g y x 0
  else if ctr < 2 ∨ ctr > 3 then set_state g y x 1
  else g

/-! ## Rendering (`render_fill_cell`) -/

/-- An `SDL_Rect`. -/
structure Rect where
  x : Int
  y : Int
  w : Int
  h : Int
  deriving DecidableEq

/-- One `SDL_FillRect` call on the window surface. -/
structure FillCall where
  rect : Rect
  color : Nat
  deriving DecidableEq

/-- What the program has emitted: the `SDL_FillRect` calls on the window
surface and the positions reported by the out-of-bounds diagnostic, oldest
first. -/
structure Screen where
  fills : List FillCall
  diag : List Position
  deriving DecidableEq

/-- The call `render_fill_cell(pos, color)`. -/
def render_fill_cell (s : Screen) (pos : Position) (color : Nat) : Screen :=
  if ¬ (pos.x < NUM_CELLS ∧ pos.y < NUM_CELLS) then
    { s with diag := s.diag ++ [pos] }
  else
    let dstRect : Rect :=
      { w := (CELL_W : Int)
        h := (CELL_H : Int)
        x := (RENDER_HORI_START : Int) + (pos.x : Int) * (CELL_W : Int)
        y := (pos.y : Int) * (CELL_H : Int) }
    { s with fills := s.fills ++ [⟨dstRect, color⟩] }

/-! ## The scan loop of `main` and `game_init` -/

/-- Body of the inner loop of `main`: draw the cell if alive, then update it. -/
def scan_cell (y : Nat) (st : Grid × Screen) (x : Nat) : Grid × Screen :=
  let s := if (st.1 y x).state = 0 then render_fill_cell st.2 (st.1 y x).pos BLACK else st.2
  (game_update st.1 y x, s)

/-- The inner loop of `main` for row `y`. -/
def scan_row (st : Grid × Screen) (y : Nat) : Grid × Screen :=
  (List.range NUM_CELLS).foldl (scan_cell y) st

/-- The loop over all cells in `main` (one frame). -/
def frame_scan (st : Grid × Screen) : Grid × Screen :=
  (List.range NUM_CELLS).foldl scan_row st

/-- The `game_update` calls of row `y`, in order. -/
def update_row (g : Grid) (y : Nat) : Grid :=
  (List.range NUM_CELLS).foldl (fun g x => game_update g y x) g

/-- The `game_update` calls of one frame, in order (the grid part of `frame_scan`). -/
def update_pass (g : Grid) : Grid :=
  (List.range NUM_CELLS).foldl update_row g

/-- Body of the inner loop of `game_init`; `k` counts the `rand()` calls made so
far and `rand k` is the value the next call returns. -/
def init_cell (rand : Nat → Nat) (y : Nat) (st : Grid × Nat) (x : Nat) : Grid × Nat :=
  (set_cell st.1 y x
    { state := (rand st.2 % 15) % UINT8_MOD, pos := { x := x % UINT32_MOD, y := y % UINT32_MOD } },
   st.2 + 1)

/-- The inner loop of `game_init` for row `y`. -/
def init_row (rand : Nat → Nat) (st : Grid × Nat) (y : Nat) : Grid × Nat :=
  (List.range NUM_CELLS).foldl (init_cell rand y) st

/-- The call `game_init()` on grid `g`, with `rand` the sequence of values the
successive `rand()` calls return. -/
def game_init (rand : Nat → Nat) (g : Grid) : Grid :=
  ((List.range NUM_CELLS).foldl (init_row rand) (g, 0)).1

/-! ## Specification-side definitions -/

/-- The toroidal Moore neighbourhood of `pos` on an `N × N` grid, with the
non-negative remainder, in the order of `n0 … n7`. -/
def torus_neighbours (N : Nat) (pos : Position) : List (Nat × Nat) :=
  [ ((((pos.y : Int) - 1) % (N : Int)).toNat, (((pos.x : Int) - 1) % (N : Int)).toNat),
    ((((pos.y : Int) - 1) % (N : Int)).toNat, (((pos.x : Int) + 0) % (N : Int)).toNat),
    ((((pos.y : Int) - 1) % (N : Int)).toNat, (((pos.x : Int) + 1) % (N : Int)).toNat),
    ((((pos.y : Int) + 0) % (N : Int)).toNat, (((pos.x : Int) - 1) % (N : Int)).toNat),
    ((((pos.y : Int) + 0) % (N : Int)).toNat, (((pos.x : Int) + 1) % (N : Int)).toNat),
    ((((pos.y : Int) + 1) % (N : Int)).toNat, (((pos.x : Int) - 1) % (N : Int)).toNat),
    ((((pos.y : Int) + 1) % (N : Int)).toNat, (((pos.x : Int) + 0) % (N : Int)).toNat),
    ((((pos.y : Int) + 1) % (N : Int)).toNat, (((pos.x : Int) + 1) % (N : Int)).toNat) ]

/-- Every cell of the array is dead. -/
def AllDead (g : Grid) : Prop :=
  ∀ y x, y < NUM_CELLS → x < NUM_CELLS → (g y x).state ≠ 0

/-- Every cell of the array carries its own index as position. -/
def PosInvariant (g : Grid) : Prop :=
  ∀ y x, y < NUM_CELLS → x < NUM_CELLS → (g y x).pos = { x := x, y := y }

/-- Double-buffered update: every cell gets the state `game_update` gives it
when run on the unmodified start-of-pass grid. -/
def sync_pass (g : Grid) : Grid :=
  fun y x => game_update g y x y x

/-- The grid after the `game_update` calls that precede the one on
`Grid.state[y][x]` in a frame: rows `0 … y-1` in full, then columns
`0 … x-1` of row `y`. -/
def scan_before (g : Grid) (y x : Nat) : Grid :=
  (List.range x).foldl (fun g c => game_update g y c) ((List.range y).foldl update_row g)

/-- A grid with position invariant whose alive cells are a horizontal blinker
in row 1, columns 1 to 3; every other cell holds the dead value `dead`. -/
def blinker (dead : Nat) : Grid :=
  fun y x => { pos := { x := x, y := y },
               state := if y = 1 ∧ (x = 1 ∨ x = 2 ∨ x = 3) then 0 else dead }

/-- A grid with position invariant whose alive cells are the 2 × 2 block in
rows 1 to 2, columns 1 to 2. -/
def block : Grid :=
  fun y x => { pos := { x := x, y := y },
               state := if (y = 1 ∨ y = 2) ∧ (x = 1 ∨ x = 2) then 0 else 1 }

/-- A grid with position invariant whose only alive cell is at row 5, column 5. -/
def lone : Grid :=
  fun y x => { pos := { x := x, y := y },
               state := if y = 5 ∧ x = 5 then 0 else 1 }

/-- A grid with position invariant in which every cell holds the dead value `dead`. -/
def uniform (dead : Nat) : Grid :=
  fun y x => { pos := { x := x, y := y }, state := dead }

/-- The rectangle `render_fill_cell` fills for an in-range position. -/
def cell_rect (pos : Position) : Rect :=
  { w := (CELL_W : Int)
    h := (CELL_H : Int)
    x := (RENDER_HORI_START : Int) + (pos.x : Int) * (CELL_W : Int)
    y := (pos.y : Int) * (CELL_H : Int) }

/-- The fill calls for the cells of row `y` that are alive in `g`, by ascending
column, each at its own index. -/
def row_fills (g : Grid) (y : Nat) : List FillCall :=
  ((List.range NUM_CELLS).filter (fun x => decide ((g y x).state = 0))).map
    (fun x => { rect := cell_rect { x := x, y := y }, color := BLACK })

/-- The fill calls for the cells that are alive in `g`, in row-major order, each
at its own index. -/
def snapshot_fills (g : Grid) : List FillCall :=
  (List.range NUM_CELLS).flatMap (row_fills g)

/-- Two grids agree on every position and on which cells of the array are alive. -/
def SameShape (g1 g2 : Grid) : Prop :=
  ∀ y x, y < NUM_CELLS → x < NUM_CELLS →
    (g1 y x).pos = (g2 y x).pos ∧ ((g1 y x).state = 0 ↔ (g2 y x).state = 0)

/-! ## Basic facts about `game_update` -/

theorem set_state_pos (g : Grid) (y x v r c : Nat) :
    (set_state g y x v r c).pos = (g r c).pos := by
  unfold set_state; split <;> rfl

theorem set_state_other (g : Grid) (y x v r c : Nat) (h : ¬ (r = y ∧ c = x)) :
    set_state g y x v r c = g r c := by
  unfold set_state; rw [if_neg h]

theorem set_state_same (g : Grid) (y x v : Nat) :
    (set_state g y x v y x).state = v := by
  unfold set_state; simp

theorem game_update_pos (g : Grid) (y x r c : Nat) :
    (game_update g y x r c).pos = (g r c).pos := by
  unfold game_update
  split_ifs <;> first | rfl | exact set_state_pos _ _ _ _ _ _

theorem game_update_other (g : Grid) (y x r c : Nat) (h : ¬ (r = y ∧ c = x)) :
    game_update g y x r c = g r c := by
  unfold game_update
  split_ifs <;> first | rfl | exact set_state_other _ _ _ _ _ _ h

theorem game_update_state (g : Grid) (y x : Nat) :
    (game_update g y x y x).state =
      if aliveNeighCtr g (g y x).pos = 2 then (g y x).state
      else if aliveNeighCtr g (g y x).pos = 3 then 0 else 1 := by
  unfold game_update
  split_ifs with h2 h3 h0 h1
  · rfl
  · exact h0
  · exact set_state_same _ _ _ _
  · exact set_state_same _ _ _ _
  · omega

theorem count_foldl (l : List Cell) (k : Nat) :
    l.foldl (fun ctr n => if n.state = 0 then ctr + 1 else ctr) k
      = k + l.countP (fun n => decide (n.state = 0)) := by
  induction l generalizing k with
  | nil => simp
  | cons a t ih =>
    rw [List.foldl_cons, ih, List.countP_cons]
    by_cases h : a.state = 0 <;> simp [h]; omega

theorem aliveNeighCtr_eq_countP (g : Grid) (pos : Position) :
    aliveNeighCtr g pos = (arr g pos).countP (fun n => decide (n.state = 0)) := by
  unfold aliveNeighCtr; rw [count_foldl]; omega

theorem neighbourIdx_lt (pos : Position) (rc : Nat × Nat) (h : rc ∈ neighbourIdx pos) :
    rc.1 < NUM_CELLS ∧ rc.2 < NUM_CELLS := by
  have hN : 0 < NUM_CELLS := by decide
  simp only [neighbourIdx, List.mem_cons, List.mem_singleton, List.not_mem_nil, or_false] at h
  rcases h with h | h | h | h | h | h | h | h <;> subst h <;>
    exact ⟨Nat.mod_lt _ hN, Nat.mod_lt _ hN⟩

theorem aliveNeighCtr_zero_of_dead (g : Grid) (pos : Position)
    (h : ∀ n ∈ arr g pos, n.state ≠ 0) : aliveNeighCtr g pos = 0 := by
  rw [aliveNeighCtr_eq_countP, List.countP_eq_zero]
  intro n hn
  simpa using h n hn

/-! ## The scan as a sequence of `game_update` calls -/

theorem range_split (y N : Nat) (h : y < N) :
    List.range N = List.range y ++ y :: List.range' (y + 1) (N - (y + 1)) := by
  have e1 : N = (N - (y + 1) + 1) + y := by omega
  conv_lhs => rw [e1]
  rw [List.range_eq_range', List.range_eq_range', ← List.range'_append, List.range'_succ]
  simp

theorem foldl_preserves {α β : Type} (P : α → Prop) (f : α → β → α)
    (hf : ∀ a b, P a → P (f a b)) (l : List β) (a : α) (ha : P a) : P (l.foldl f a) := by
  induction l generalizing a with
  | nil => exact ha
  | cons b t ih => exact ih (f a b) (hf a b ha)

theorem scan_row_fst (st : Grid × Screen) (y : Nat) :
    (scan_row st y).1 = update_row st.1 y := by
  unfold scan_row update_row
  generalize List.range NUM_CELLS = l
  induction l generalizing st with
  | nil => rfl
  | cons a t ih => rw [List.foldl_cons, List.foldl_cons, ih]; rfl

/-- The grid a frame's scan loop leaves is `update_pass` of the grid it starts
from, whatever has been drawn. -/
theorem frame_scan_fst (st : Grid × Screen) : (frame_scan st).1 = update_pass st.1 := by
  unfold frame_scan update_pass
  generalize List.range NUM_CELLS = l
  induction l generalizing st with
  | nil => rfl
  | cons a t ih => rw [List.foldl_cons, List.foldl_cons, ih, scan_row_fst]

theorem foldl_cols_other (y : Nat) (l : List Nat) (g : Grid) (r c : Nat)
    (h : ¬ (r = y ∧ c ∈ l)) :
    (l.foldl (fun g x => game_update g y x) g) r c = g r c := by
  induction l generalizing g with
  | nil => rfl
  | cons a t ih =>
    rw [List.foldl_cons, ih]
    · exact game_update_other g y a r c (fun hh => h ⟨hh.1, by simp [hh.2]⟩)
    · intro hh; exact h ⟨hh.1, List.mem_cons_of_mem _ hh.2⟩

theorem update_row_other (g : Grid) (y r c : Nat) (h : r ≠ y) :
    update_row g y r c = g r c :=
  foldl_cols_other y _ g r c (fun hh => h hh.1)

theorem foldl_rows_other (l : List Nat) (g : Grid) (r c : Nat) (h : r ∉ l) :
    (l.foldl update_row g) r c = g r c := by
  induction l generalizing g with
  | nil => rfl
  | cons a t ih =>
    rw [List.foldl_cons, ih, update_row_other]
    · intro e; exact h (by simp [e])
    · intro hh; exact h (List.mem_cons_of_mem _ hh)

theorem update_row_at (g : Grid) (y x : Nat) (hx : x < NUM_CELLS) :
    update_row g y y x
      = game_update ((List.range x).foldl (fun g c => game_update g y c) g) y x y x := by
  unfold update_row
  rw [range_split x NUM_CELLS hx, List.foldl_append, List.foldl_cons, foldl_cols_other]
  rintro ⟨-, hm⟩
  rw [List.mem_range'_1] at hm; omega

/-- The cell a pass leaves at `[y][x]` is the one its own `game_update` call
produces, on the grid as the earlier calls of the pass left it. -/
theorem update_pass_at (g : Grid) (y x : Nat) (hy : y < NUM_CELLS) (hx : x < NUM_CELLS) :
    update_pass g y x = game_update (scan_before g y x) y x y x := by
  unfold update_pass scan_before
  rw [range_split y NUM_CELLS hy, List.foldl_append, List.foldl_cons, foldl_rows_other,
    update_row_at _ _ _ hx]
  intro hm; rw [List.mem_range'_1] at hm; omega

/-- The calls that precede the one on `[y][x]` leave that cell as it was. -/
theorem scan_before_same (g : Grid) (y x : Nat) : scan_before g y x y x = g y x := by
  unfold scan_before
  rw [foldl_cols_other, foldl_rows_other]
  · simp
  · simp

/-! ## Neighbour lookup (C1) -/

/-- Away from row 0 and column 0 the cells `game_update` examines are the
toroidal Moore neighbours. -/
theorem neighbourIdx_eq_torus_of_pos (x y : Nat) (hx : 1 ≤ x) (hx2 : x < NUM_CELLS)
    (hy : 1 ≤ y) (hy2 : y < NUM_CELLS) :
    neighbourIdx ⟨x, y⟩ = torus_neighbours NUM_CELLS ⟨x, y⟩ := by
  simp only [neighbourIdx, torus_neighbours, sub_u32, add_u32, NUM_CELLS, UINT32_MOD] at *
  simp only [List.cons.injEq, Prod.mk.injEq, and_true]
  omega

/-- On the low edge the decrement wraps to index 45, on the high edge the
increment wraps to index 0. -/
theorem edge_wrap_indices :
    sub_u32 0 1 % NUM_CELLS = 45 ∧ add_u32 (NUM_CELLS - 1) 1 % NUM_CELLS = 0 := by
  decide

/-- C1 (code defect): for the cell at pos (0, 0) the `uint32_t` difference
`0 - 1` is `2 ^ 32 - 1`, whose remainder modulo 150 is 45, so `game_update`
examines row 45 and column 45 where the toroidal Moore neighbourhood has row 149
and column 149; the eight examined cells are not the toroidal neighbours. -/
theorem neighbourIdx_origin_not_torus :
    neighbourIdx ⟨0, 0⟩
        = [(45, 45), (45, 0), (45, 1), (0, 45), (0, 1), (1, 45), (1, 0), (1, 1)]
      ∧ torus_neighbours NUM_CELLS ⟨0, 0⟩
        = [(149, 149), (149, 0), (149, 1), (0, 149), (0, 1), (1, 149), (1, 0), (1, 1)]
      ∧ neighbourIdx ⟨0, 0⟩ ≠ torus_neighbours NUM_CELLS ⟨0, 0⟩ := by
  decide

/-! ## The per-cell rule (C2 – C5) -/

/-- C2 (counterexample): in the blinker grid the dead cell at row 0, column 2 has
exactly 3 alive examined neighbours and is alive after `game_update`, so it does
not stay dead; in the block grid the alive cell at row 1, column 1 has exactly 3
alive examined neighbours and is still alive after `game_update`, so it is not
killed. -/
theorem three_neighbours_not_dead_after :
    (aliveNeighCtr (blinker 1) (blinker 1 0 2).pos = 3 ∧ (blinker 1 0 2).state ≠ 0
        ∧ (game_update (blinker 1) 0 2 0 2).state = 0)
      ∧ (aliveNeighCtr block (block 1 1).pos = 3 ∧ (block 1 1).state = 0
        ∧ (game_update block 1 1 1 1).state = 0) := by
  decide

/-- C2 (amended): if exactly 3 of the eight examined neighbour cells are alive,
the cell is alive after the call: a dead cell is born (its state becomes 0) and
an alive cell stays alive, the grid being left as it was. -/
theorem game_update_three (g : Grid) (y x : Nat)
    (h : aliveNeighCtr g (g y x).pos = 3) :
    (game_update g y x y x).state = 0
      ∧ ((g y x).state ≠ 0 → game_update g y x = set_state g y x 0)
      ∧ ((g y x).state = 0 → game_update g y x = g) := by
  refine ⟨?_, ?_, ?_⟩
  · rw [game_update_state, h]; simp
  · intro hd; unfold game_update; simp [h, hd]
  · intro ha; unfold game_update; simp [h, ha]

/-- Witness for C2 (amended): the dead cell at row 0, column 2 of the blinker
grid has 3 alive neighbours and is born. -/
theorem game_update_three_witness :
    aliveNeighCtr (blinker 1) (blinker 1 0 2).pos = 3
      ∧ (game_update (blinker 1) 0 2 0 2).state = 0 :=
  ⟨by decide, (game_update_three (blinker 1) 0 2 (by decide)).1⟩

/-- C3: with `c` the value of `aliveNeighCtr` after the counting loop, the cell
is alive after `game_update` exactly when `c = 3`, or `c = 2` and the cell was
alive before the call (rule B3/S23). -/
theorem game_update_conway (g : Grid) (y x : Nat) :
    (game_update g y x y x).state = 0 ↔
      (aliveNeighCtr g (g y x).pos = 3
        ∨ (aliveNeighCtr g (g y x).pos = 2 ∧ (g y x).state = 0)) := by
  rw [game_update_state]
  by_cases h2 : aliveNeighCtr g (g y x).pos = 2
  · simp [h2]
  · by_cases h3 : aliveNeighCtr g (g y x).pos = 3
    · simp [h3]
    · simp [h2, h3]

/-- C4: if fewer than 2 or more than 3 of the examined neighbour cells are alive,
the cell's state after `game_update` is the dead value 1, whatever it was; this
is so in particular when all eight examined cells are dead. -/
theorem game_update_dies (g : Grid) (y x : Nat)
    (h : aliveNeighCtr g (g y x).pos < 2 ∨ 3 < aliveNeighCtr g (g y x).pos
          ∨ ∀ n ∈ arr g (g y x).pos, n.state ≠ 0) :
    (game_update g y x y x).state = 1 := by
  have h' : aliveNeighCtr g (g y x).pos < 2 ∨ 3 < aliveNeighCtr g (g y x).pos := by
    rcases h with h | h | h
    · exact Or.inl h
    · exact Or.inr h
    · left; rw [aliveNeighCtr_zero_of_dead g _ h]; decide
  rw [game_update_state, if_neg (by omega), if_neg (by omega)]

/-- Witness for C4: the single alive cell of the lone grid has eight dead
neighbours (count 0) and is dead after `game_update`. -/
theorem game_update_dies_witness :
    (lone 5 5).state = 0 ∧ (∀ n ∈ arr lone (lone 5 5).pos, n.state ≠ 0)
      ∧ aliveNeighCtr lone (lone 5 5).pos = 0
      ∧ (game_update lone 5 5 5 5).state = 1 :=
  ⟨by decide, by decide, by decide, game_update_dies lone 5 5 (Or.inl (by decide))⟩

/-- C5: if exactly 2 of the examined neighbour cells are alive, `game_update`
leaves the whole grid, and so the cell's state byte, as it was. -/
theorem game_update_two_noop (g : Grid) (y x : Nat)
    (h : aliveNeighCtr g (g y x).pos = 2) :
    game_update g y x = g ∧ (game_update g y x y x).state = (g y x).state := by
  have e : game_update g y x = g := by unfold game_update; simp [h]
  exact ⟨e, by rw [e]⟩

/-- Witness for C5: the cell at row 0, column 1 of the blinker grid, holding the
byte 200, has 2 alive neighbours and keeps its byte. -/
theorem game_update_two_noop_witness :
    aliveNeighCtr (blinker 200) (blinker 200 0 1).pos = 2
      ∧ game_update (blinker 200) 0 1 = blinker 200
      ∧ (game_update (blinker 200) 0 1 0 1).state = 200 :=
  ⟨by decide, (game_update_two_noop (blinker 200) 0 1 (by decide)).1,
   (game_update_two_noop (blinker 200) 0 1 (by decide)).2.trans (by decide)⟩

/-! ## Whole passes (C6 – C8) -/

theorem game_update_allDead (g : Grid) (y x : Nat) (h : AllDead g) :
    AllDead (game_update g y x) := by
  have hc : aliveNeighCtr g (g y x).pos = 0 := by
    apply aliveNeighCtr_zero_of_dead
    intro n hn
    obtain ⟨rc, hrc, rfl⟩ := List.mem_map.1 hn
    exact h rc.1 rc.2 (neighbourIdx_lt _ rc hrc).1 (neighbourIdx_lt _ rc hrc).2
  intro r c hr hcN
  by_cases e : r = y ∧ c = x
  · rw [e.1, e.2, game_update_state, hc]; simp
  · rw [game_update_other g y x r c e]; exact h r c hr hcN

theorem update_pass_allDead (g : Grid) (h : AllDead g) : AllDead (update_pass g) := by
  unfold update_pass
  refine foldl_preserves AllDead update_row ?_ _ g h
  intro a y ha
  unfold update_row
  exact foldl_preserves AllDead (fun g x => game_update g y x)
    (fun a x ha => game_update_allDead a y x ha) _ a ha

/-- C6: a grid in which every cell is dead (any nonzero state bytes) has every
cell dead after any number `n` of update passes. -/
theorem all_dead_stays_dead (g : Grid) (h : AllDead g) (n : Nat) :
    AllDead (update_pass^[n] g) := by
  induction n with
  | zero => exact h
  | succ k ih => rw [Function.iterate_succ_apply']; exact update_pass_allDead _ ih

/-- Witness for C6: the grid whose cells all hold the dead byte 9 is all dead
after 3 passes. -/
theorem all_dead_stays_dead_witness :
    AllDead (uniform 9) ∧ AllDead (update_pass^[3] (uniform 9)) :=
  ⟨fun _ _ _ _ => by simp [uniform],
   all_dead_stays_dead (uniform 9) (fun _ _ _ _ => by simp [uniform]) 3⟩

/-- C7 (counterexample): the blinker grid satisfies the position invariant, and
its dead cell at row 0, column 3 has exactly 2 alive cells among its eight
neighbours at the start of the pass (among the cells `game_update` examines and
among the toroidal neighbours alike), yet after one pass its state is 0 where it
was 1 before. -/
theorem two_at_start_changed_by_pass :
    PosInvariant (blinker 1)
      ∧ aliveNeighCtr (blinker 1) (blinker 1 0 3).pos = 2
      ∧ ((torus_neighbours NUM_CELLS (blinker 1 0 3).pos).countP
            (fun rc => decide ((blinker 1 rc.1 rc.2).state = 0))) = 2
      ∧ (blinker 1 0 3).state = 1
      ∧ (update_pass (blinker 1) 0 3).state = 0 := by
  refine ⟨fun _ _ _ _ => rfl, by decide, by decide, by decide, ?_⟩
  rw [update_pass_at _ _ _ (by decide) (by decide)]
  decide

/-- C7 (amended): for a grid whose cell positions equal their indices, a cell
that has exactly 2 alive cells among its eight examined neighbours in the grid
as it stands when the scan reaches the cell (after the `game_update` calls on
all cells before it in row-major order) has the same state after the full pass
as before it. -/
theorem two_at_visit_unchanged_by_pass (g : Grid) (y x : Nat) (hg : PosInvariant g)
    (hy : y < NUM_CELLS) (hx : x < NUM_CELLS)
    (h : aliveNeighCtr (scan_before g y x) { x := x, y := y } = 2) :
    (update_pass g y x).state = (g y x).state := by
  have hp : (scan_before g y x y x).pos = { x := x, y := y } := by
    rw [scan_before_same]; exact hg y x hy hx
  rw [update_pass_at g y x hy hx, game_update_state, hp, if_pos h, scan_before_same]

/-- Witness for C7 (amended): the cell at row 0, column 1 of the blinker grid
has 2 alive neighbours when the scan reaches it and keeps its byte 77. -/
theorem two_at_visit_unchanged_by_pass_witness :
    PosInvariant (blinker 77)
      ∧ aliveNeighCtr (scan_before (blinker 77) 0 1) { x := 1, y := 0 } = 2
      ∧ (update_pass (blinker 77) 0 1).state = 77 :=
  ⟨fun _ _ _ _ => rfl, by decide,
   (two_at_visit_unchanged_by_pass (blinker 77) 0 1 (fun _ _ _ _ => rfl)
      (by decide) (by decide) (by decide)).trans (by decide)⟩

/-- C8: the in-place pass is not the double-buffered update: on the blinker grid
the cell at row 0, column 3 is alive after one in-place row-major pass and dead
after the double-buffered update of the same per-cell rule. -/
theorem in_place_differs_from_sync :
    ∃ g : Grid, ∃ y x : Nat, y < NUM_CELLS ∧ x < NUM_CELLS ∧ PosInvariant g
      ∧ (update_pass g y x).state = 0 ∧ (sync_pass g y x).state ≠ 0 := by
  refine ⟨blinker 1, 0, 3, by decide, by decide, fun _ _ _ _ => rfl, ?_, by decide⟩
  rw [update_pass_at _ _ _ (by decide) (by decide)]
  decide

/-! ## Initialisation and the position invariant (C9, C10) -/

theorem init_cols (rand : Nat → Nat) (y n : Nat) (st : Grid × Nat) :
    (List.range n).foldl (init_cell rand y) st =
      ((fun r c => if r = y ∧ c < n then
          { pos := { x := c % UINT32_MOD, y := y % UINT32_MOD },
            state := (rand (st.2 + c) % 15) % UINT8_MOD }
        else st.1 r c), st.2 + n) := by
  induction n with
  | zero => simp
  | succ k ih =>
    rw [List.range_succ, List.foldl_append, ih]
    simp only [List.foldl_cons, List.foldl_nil, init_cell]
    refine Prod.ext ?_ (by simp only; omega)
    funext r c
    simp only [set_cell]
    by_cases h1 : r = y ∧ c = k
    · rw [if_pos h1, if_pos ⟨h1.1, by omega⟩, h1.2]
    · rw [if_neg h1]
      by_cases h2 : r = y ∧ c < k
      · rw [if_pos h2, if_pos ⟨h2.1, by omega⟩]
      · rw [if_neg h2, if_neg (fun hh => by
          rcases Nat.lt_succ_iff_lt_or_eq.1 hh.2 with h3 | h3
          · exact h2 ⟨hh.1, h3⟩
          · exact h1 ⟨hh.1, h3⟩)]

theorem init_rows (rand : Nat → Nat) (m : Nat) (g : Grid) (k : Nat) :
    (List.range m).foldl (init_row rand) (g, k) =
      ((fun r c => if r < m ∧ c < NUM_CELLS then
          { pos := { x := c % UINT32_MOD, y := r % UINT32_MOD },
            state := (rand (k + r * NUM_CELLS + c) % 15) % UINT8_MOD }
        else g r c), k + m * NUM_CELLS) := by
  induction m with
  | zero => simp
  | succ j ih =>
    rw [List.range_succ, List.foldl_append, ih]
    simp only [List.foldl_cons, List.foldl_nil, init_row, init_cols]
    refine Prod.ext ?_ (by simp only; rw [Nat.succ_mul]; omega)
    funext r c
    simp only
    by_cases h1 : r = j ∧ c < NUM_CELLS
    · rw [if_pos h1, if_pos ⟨by omega, h1.2⟩, h1.1]
    · rw [if_neg h1]
      by_cases h2 : r < j ∧ c < NUM_CELLS
      · rw [if_pos h2, if_pos ⟨by omega, h2.2⟩]
      · rw [if_neg h2, if_neg (fun hh => by
          rcases Nat.lt_succ_iff_lt_or_eq.1 hh.1 with h3 | h3
          · exact h2 ⟨h3, hh.2⟩
          · exact h1 ⟨h3, hh.2⟩)]

/-- The cell `game_init` leaves at `[y][x]`. -/
theorem game_init_apply (rand : Nat → Nat) (g : Grid) (y x : Nat)
    (hy : y < NUM_CELLS) (hx : x < NUM_CELLS) :
    game_init rand g y x
      = { pos := { x := x, y := y }, state := rand (y * NUM_CELLS + x) % 15 } := by
  unfold game_init
  rw [init_rows]
  simp only [if_pos (And.intro hy hx), Nat.zero_add]
  have e1 : x % UINT32_MOD = x :=
    Nat.mod_eq_of_lt (Nat.lt_trans hx (by decide))
  have e2 : y % UINT32_MOD = y :=
    Nat.mod_eq_of_lt (Nat.lt_trans hy (by decide))
  have e3 : (rand (y * NUM_CELLS + x) % 15) % UINT8_MOD = rand (y * NUM_CELLS + x) % 15 :=
    Nat.mod_eq_of_lt (Nat.lt_trans (Nat.mod_lt _ (by decide)) (by decide))
  rw [e1, e2, e3]

theorem game_update_posInvariant (g : Grid) (y x : Nat) (h : PosInvariant g) :
    PosInvariant (game_update g y x) := by
  intro r c hr hc
  rw [game_update_pos]; exact h r c hr hc

theorem update_pass_posInvariant (g : Grid) (h : PosInvariant g) :
    PosInvariant (update_pass g) := by
  unfold update_pass
  refine foldl_preserves PosInvariant update_row ?_ _ g h
  intro a y ha
  unfold update_row
  exact foldl_preserves PosInvariant (fun g x => game_update g y x)
    (fun a x ha => game_update_posInvariant a y x ha) _ a ha

/-- C9: after `game_init`, and after any number `n` of subsequent update passes,
every cell of the array carries its own index as position; `game_init`
establishes this from any prior grid contents and no `game_update` call changes
any `pos` field. -/
theorem pos_invariant_always (rand : Nat → Nat) (g0 : Grid) :
    PosInvariant (game_init rand g0)
      ∧ (∀ n : Nat, PosInvariant (update_pass^[n] (game_init rand g0)))
      ∧ (∀ (g : Grid) (y x r c : Nat), (game_update g y x r c).pos = (g r c).pos) := by
  have h0 : PosInvariant (game_init rand g0) := by
    intro y x hy hx
    rw [game_init_apply rand g0 y x hy hx]
  refine ⟨h0, ?_, game_update_pos⟩
  intro n
  induction n with
  | zero => exact h0
  | succ k ih => rw [Function.iterate_succ_apply']; exact update_pass_posInvariant _ ih

/-- C10: with `rand k` the value of the `k`-th `rand()` call, `game_init` sets the
state of `Grid.state[y][x]` to `rand (y * NUM_CELLS + x) % 15`, a value below
15, so the cell is alive exactly when its draw is divisible by 15; the cell does
not depend on the prior grid contents, so two runs on the same sequence produce
the same cells. -/
theorem game_init_state (rand : Nat → Nat) (g0 : Grid) (y x : Nat)
    (hy : y < NUM_CELLS) (hx : x < NUM_CELLS) :
    (game_init rand g0 y x).state = rand (y * NUM_CELLS + x) % 15
      ∧ (game_init rand g0 y x).state < 15
      ∧ ((game_init rand g0 y x).state = 0 ↔ 15 ∣ rand (y * NUM_CELLS + x))
      ∧ (∀ g1 : Grid, game_init rand g1 y x = game_init rand g0 y x) := by
  rw [game_init_apply rand g0 y x hy hx]
  refine ⟨rfl, Nat.mod_lt _ (by decide), ?_, ?_⟩
  · exact Nat.dvd_iff_mod_eq_zero.symm
  · intro g1; rw [game_init_apply rand g1 y x hy hx]

/-- Witness for C10: with the draws `rand k = 7 * k + 3`, the cell at row 2,
column 3 gets the draw number 303, whose value 2124 leaves state 9. -/
theorem game_init_state_witness :
    2 < NUM_CELLS ∧ 3 < NUM_CELLS
      ∧ (game_init (fun k => 7 * k + 3) (uniform 0) 2 3).state = 9 :=
  ⟨by decide, by decide,
   (game_init_state (fun k => 7 * k + 3) (uniform 0) 2 3 (by decide) (by decide)).1.trans
     (by decide)⟩

/-! ## Rendering one cell (C11, C13) -/

theorem render_fill_cell_in (s : Screen) (pos : Position) (color : Nat)
    (h : pos.x < NUM_CELLS ∧ pos.y < NUM_CELLS) :
    render_fill_cell s pos color
      = { s with fills := s.fills ++ [{ rect := cell_rect pos, color := color }] } := by
  unfold render_fill_cell
  rw [if_neg (not_not.2 h)]
  rfl

theorem render_fill_cell_out (s : Screen) (pos : Position) (color : Nat)
    (h : ¬ (pos.x < NUM_CELLS ∧ pos.y < NUM_CELLS)) :
    render_fill_cell s pos color = { s with diag := s.diag ++ [pos] } := by
  unfold render_fill_cell
  rw [if_pos h]

/-- C11: for a position with a coordinate at or above `NUM_CELLS`, and any
colour, `render_fill_cell` issues no fill call, so the list of fills on the
surface is unchanged; for a position with both coordinates below `NUM_CELLS` it
issues exactly one fill call and no diagnostic. -/
theorem render_fill_cell_calls (s : Screen) (pos : Position) (color : Nat) :
    ((NUM_CELLS ≤ pos.x ∨ NUM_CELLS ≤ pos.y) →
        (render_fill_cell s pos color).fills = s.fills)
      ∧ ((pos.x < NUM_CELLS ∧ pos.y < NUM_CELLS) →
        (∃ call : FillCall, (render_fill_cell s pos color).fills = s.fills ++ [call])
          ∧ ((render_fill_cell s pos color).fills).length = s.fills.length + 1
          ∧ (render_fill_cell s pos color).diag = s.diag) := by
  constructor
  · intro h
    rw [render_fill_cell_out s pos color (by omega)]
  · intro h
    rw [render_fill_cell_in s pos color h]
    exact ⟨⟨_, rfl⟩, by simp, rfl⟩

/-- Witness for C11: on a surface with one earlier fill, the position (150, 0) in
black leaves the fills as they are, and the position (149, 149) adds one. -/
theorem render_fill_cell_calls_witness :
    (render_fill_cell { fills := [⟨⟨0, 0, 1, 900⟩, BLACK⟩], diag := [] }
        { x := 150, y := 0 } BLACK).fills = [⟨⟨0, 0, 1, 900⟩, BLACK⟩]
      ∧ ((render_fill_cell { fills := [⟨⟨0, 0, 1, 900⟩, BLACK⟩], diag := [] }
        { x := 149, y := 149 } BLACK).fills).length = 2 :=
  ⟨(render_fill_cell_calls { fills := [⟨⟨0, 0, 1, 900⟩, BLACK⟩], diag := [] }
      { x := 150, y := 0 } BLACK).1 (Or.inl (by decide)),
   ((render_fill_cell_calls { fills := [⟨⟨0, 0, 1, 900⟩, BLACK⟩], diag := [] }
      { x := 149, y := 149 } BLACK).2 ⟨by decide, by decide⟩).2.1⟩

/-- C13: for a position with both coordinates below 150, `render_fill_cell` fills
the rectangle with x = 190 + 6 * pos.x, y = 6 * pos.y, w = h = 6; the rectangle
lies inside the render region 190 ≤ px < 1090, 0 ≤ py < 900, whose left margin
190 equals the right margin of the 1280 wide, 900 high window. -/
theorem render_fill_cell_rect (s : Screen) (pos : Position) (color : Nat)
    (hx : pos.x < NUM_CELLS) (hy : pos.y < NUM_CELLS) :
    (render_fill_cell s pos color).fills
        = s.fills ++ [{ rect := { x := 190 + 6 * (pos.x : Int), y := 6 * (pos.y : Int),
                                  w := 6, h := 6 },
                        color := color }]
      ∧ (190 ≤ (cell_rect pos).x ∧ (cell_rect pos).x + (cell_rect pos).w ≤ 1090)
      ∧ (0 ≤ (cell_rect pos).y ∧ (cell_rect pos).y + (cell_rect pos).h ≤ 900)
      ∧ (NUM_CELLS = 150 ∧ CELL_W = 6 ∧ CELL_H = 6 ∧ WIDTH = 1280 ∧ HEIGHT = 900)
      ∧ (RENDER_HORI_START = 190 ∧ RENDER_HORI_END = 1090
          ∧ WIDTH - RENDER_HORI_END = RENDER_HORI_START) := by
  have e : cell_rect pos
      = { x := 190 + 6 * (pos.x : Int), y := 6 * (pos.y : Int), w := 6, h := 6 } := by
    have c1 : ((CELL_W : Nat) : Int) = 6 := by decide
    have c2 : ((CELL_H : Nat) : Int) = 6 := by decide
    have c3 : ((RENDER_HORI_START : Nat) : Int) = 190 := by decide
    unfold cell_rect
    rw [c1, c2, c3, Int.mul_comm (pos.x : Int) 6, Int.mul_comm (pos.y : Int) 6]
  have hN : NUM_CELLS = 150 := rfl
  rw [hN] at hx hy
  refine ⟨?_, ?_, ?_, by decide, by decide⟩
  · rw [render_fill_cell_in s pos color ⟨by omega, by omega⟩, e]
  · rw [e]; constructor <;> simp only <;> omega
  · rw [e]; constructor <;> simp only <;> omega

/-- Witness for C13: the position (149, 149), the last cell, is filled at pixel
(1084, 894) with size 6 by 6. -/
theorem render_fill_cell_rect_witness :
    (render_fill_cell { fills := [], diag := [] } { x := 149, y := 149 } BLACK).fills
      = [] ++ [{ rect := { x := 190 + 6 * ((149 : Nat) : Int), y := 6 * ((149 : Nat) : Int),
                           w := 6, h := 6 },
                 color := BLACK }] :=
  (render_fill_cell_rect { fills := [], diag := [] } { x := 149, y := 149 } BLACK
    (by decide) (by decide)).1

/-! ## Frame and bounds of `game_update` (C16, C17) -/

/-- C16: `game_update` changes at most the state of the cell it is called on:
every other cell and every `pos` field are as before, and the state of the
called cell is afterwards its previous value, 0 or 1. -/
theorem game_update_frame (g : Grid) (y x : Nat) :
    (∀ r c : Nat, ¬ (r = y ∧ c = x) → game_update g y x r c = g r c)
      ∧ (∀ r c : Nat, (game_update g y x r c).pos = (g r c).pos)
      ∧ ((game_update g y x y x).state = (g y x).state
          ∨ (game_update g y x y x).state = 0 ∨ (game_update g y x y x).state = 1) := by
  refine ⟨fun r c h => game_update_other g y x r c h, game_update_pos g y x, ?_⟩
  rw [game_update_state]
  split_ifs
  · exact Or.inl rfl
  · exact Or.inr (Or.inl rfl)
  · exact Or.inr (Or.inr rfl)

/-- C17: for a cell whose `pos.x` and `pos.y` are any 32-bit unsigned values
(0 and 2 ^ 32 - 1 included, where the decrement and the increment wrap),
`game_update` computes eight index pairs and each row index and each column
index is below `NUM_CELLS`. -/
theorem neighbour_lookups_in_bounds (pos : Position)
    (hx : pos.x < UINT32_MOD) (hy : pos.y < UINT32_MOD) :
    (neighbourIdx pos).length = 8
      ∧ (∀ rc ∈ neighbourIdx pos, rc.1 < NUM_CELLS ∧ rc.2 < NUM_CELLS)
      ∧ sub_u32 pos.x 1 = (if pos.x = 0 then UINT32_MOD - 1 else pos.x - 1)
      ∧ add_u32 pos.x 1 = (if pos.x = UINT32_MOD - 1 then 0 else pos.x + 1)
      ∧ sub_u32 pos.y 1 = (if pos.y = 0 then UINT32_MOD - 1 else pos.y - 1)
      ∧ add_u32 pos.y 1 = (if pos.y = UINT32_MOD - 1 then 0 else pos.y + 1) := by
  refine ⟨rfl, fun rc h => neighbourIdx_lt pos rc h, ?_, ?_, ?_, ?_⟩ <;>
    simp only [sub_u32, add_u32, UINT32_MOD] at * <;> split_ifs <;> omega

/-- Witness for C17: the position (0, 2 ^ 32 - 1) gives the index pairs with rows
44, 45, 0 and columns 45, 0, 1, all below 150. -/
theorem neighbour_lookups_in_bounds_witness :
    neighbourIdx { x := 0, y := 4294967295 }
        = [(44, 45), (44, 0), (44, 1), (45, 45), (45, 1), (0, 45), (0, 0), (0, 1)]
      ∧ ∀ rc ∈ neighbourIdx { x := 0, y := 4294967295 }, rc.1 < NUM_CELLS ∧ rc.2 < NUM_CELLS :=
  ⟨by decide,
   (neighbour_lookups_in_bounds { x := 0, y := 4294967295 } (by decide) (by decide)).2.1⟩

/-! ## What a frame draws (C12, C14) -/

theorem update_row_posInvariant (g : Grid) (y : Nat) (h : PosInvariant g) :
    PosInvariant (update_row g y) := by
  unfold update_row
  exact foldl_preserves PosInvariant (fun g x => game_update g y x)
    (fun a x ha => game_update_posInvariant a y x ha) _ g h

theorem iterate_posInvariant (g : Grid) (h : PosInvariant g) (n : Nat) :
    PosInvariant (update_pass^[n] g) := by
  induction n with
  | zero => exact h
  | succ k ih => rw [Function.iterate_succ_apply']; exact update_pass_posInvariant _ ih

theorem game_init_posInvariant (rand : Nat → Nat) (g0 : Grid) :
    PosInvariant (game_init rand g0) := by
  intro y x hy hx
  rw [game_init_apply rand g0 y x hy hx]

/-- The inner loop of the scan up to column `n`: the grid is the one the
`game_update` calls leave, and the fills added are those of the cells of the row
that were alive when the loop started. -/
theorem scan_cols_upto (g : Grid) (s : Screen) (y : Nat) (hg : PosInvariant g)
    (hy : y < NUM_CELLS) (n : Nat) (hn : n ≤ NUM_CELLS) :
    (List.range n).foldl (scan_cell y) (g, s)
      = ((List.range n).foldl (fun g x => game_update g y x) g,
         { fills := s.fills ++
             ((List.range n).filter (fun x => decide ((g y x).state = 0))).map
               (fun x => { rect := cell_rect { x := x, y := y }, color := BLACK }),
           diag := s.diag }) := by
  induction n with
  | zero => simp
  | succ k ih =>
    rw [List.range_succ, List.foldl_append, ih (by omega), List.foldl_append,
      List.filter_append, List.map_append]
    simp only [List.foldl_cons, List.foldl_nil, scan_cell]
    have hk : ((List.range k).foldl (fun g x => game_update g y x) g) y k = g y k :=
      foldl_cols_other y _ g y k (by simp)
    rw [hk, hg y k hy (by omega)]
    by_cases ha : (g y k).state = 0
    · rw [if_pos ha, render_fill_cell_in _ _ _ ⟨by show k < NUM_CELLS; omega, hy⟩]
      simp [ha, List.append_assoc]
    · rw [if_neg ha]
      simp [ha]

theorem scan_row_eq (g : Grid) (s : Screen) (y : Nat) (hg : PosInvariant g)
    (hy : y < NUM_CELLS) :
    scan_row (g, s) y
      = (update_row g y, { fills := s.fills ++ row_fills g y, diag := s.diag }) :=
  scan_cols_upto g s y hg hy NUM_CELLS (Nat.le_refl _)

theorem row_fills_congr (g1 g2 : Grid) (y : Nat) (h : ∀ x, g1 y x = g2 y x) :
    row_fills g1 y = row_fills g2 y := by
  unfold row_fills
  congr 2
  funext x
  rw [h x]

/-- The outer loop of the scan up to row `m`. -/
theorem scan_rows_upto (g : Grid) (s : Screen) (hg : PosInvariant g)
    (m : Nat) (hm : m ≤ NUM_CELLS) :
    (List.range m).foldl scan_row (g, s)
      = ((List.range m).foldl update_row g,
         { fills := s.fills ++ (List.range m).flatMap (row_fills g), diag := s.diag }) := by
  induction m with
  | zero => simp
  | succ k ih =>
    rw [List.range_succ, List.foldl_append, ih (by omega), List.foldl_append,
      List.flatMap_append]
    simp only [List.foldl_cons, List.foldl_nil, List.flatMap_singleton]
    have hG : PosInvariant ((List.range k).foldl update_row g) :=
      foldl_preserves PosInvariant update_row
        (fun a y ha => update_row_posInvariant a y ha) _ g hg
    rw [scan_row_eq _ _ k hG (by omega)]
    have e : row_fills ((List.range k).foldl update_row g) k = row_fills g k :=
      row_fills_congr _ _ k (fun x => foldl_rows_other _ g k x (by simp))
    rw [e, List.append_assoc]

/-- The scan loop of a frame, started on a grid with the position invariant,
adds the fills of the cells alive at the start and no diagnostic. -/
theorem frame_scan_snd (g : Grid) (s : Screen) (hg : PosInvariant g) :
    (frame_scan (g, s)).2 = { fills := s.fills ++ snapshot_fills g, diag := s.diag } := by
  unfold frame_scan snapshot_fills
  rw [scan_rows_upto g s hg NUM_CELLS (Nat.le_refl _)]

/-- The state in which the scan loop reaches `[y][x]` has the grid
`scan_before g y x`. -/
theorem scan_reaches (st : Grid × Screen) (y x : Nat) :
    ((List.range x).foldl (scan_cell y) ((List.range y).foldl scan_row st)).1
      = scan_before st.1 y x := by
  have rows : ∀ (l : List Nat) (st : Grid × Screen),
      (l.foldl scan_row st).1 = l.foldl update_row st.1 := by
    intro l
    induction l with
    | nil => intro st; rfl
    | cons a t ih => intro st; rw [List.foldl_cons, List.foldl_cons, ih, scan_row_fst]
  have cols : ∀ (l : List Nat) (st : Grid × Screen),
      (l.foldl (scan_cell y) st).1 = l.foldl (fun g c => game_update g y c) st.1 := by
    intro l
    induction l with
    | nil => intro st; rfl
    | cons a t ih => intro st; rw [List.foldl_cons, List.foldl_cons, ih]; rfl
  unfold scan_before
  rw [cols, rows]

theorem cell_rect_inj (x y x2 y2 : Nat)
    (h : cell_rect { x := x, y := y } = cell_rect { x := x2, y := y2 }) :
    x = x2 ∧ y = y2 := by
  have c1 : ((CELL_W : Nat) : Int) = 6 := by decide
  have c2 : ((CELL_H : Nat) : Int) = 6 := by decide
  unfold cell_rect at h
  rw [c1, c2] at h
  simp only [Rect.mk.injEq] at h
  omega

theorem mem_row_fills (g : Grid) (y : Nat) (call : FillCall) :
    call ∈ row_fills g y ↔
      ∃ x, x < NUM_CELLS ∧ (g y x).state = 0
        ∧ call = { rect := cell_rect { x := x, y := y }, color := BLACK } := by
  unfold row_fills
  simp only [List.mem_map, List.mem_filter, List.mem_range, decide_eq_true_eq]
  constructor
  · rintro ⟨x, ⟨hx, ha⟩, rfl⟩; exact ⟨x, hx, ha, rfl⟩
  · rintro ⟨x, hx, ha, rfl⟩; exact ⟨x, ⟨hx, ha⟩, rfl⟩

theorem row_fills_nodup (g : Grid) (y : Nat) : (row_fills g y).Nodup := by
  unfold row_fills
  refine List.Nodup.map ?_ (List.Nodup.filter _ (List.nodup_range _))
  intro a b hab
  simp only [FillCall.mk.injEq, and_true] at hab
  exact (cell_rect_inj a y b y hab).1

/-- C12: started from the grid `game_init` produces, in every frame (after any
number `n` of earlier passes) every position handed to `render_fill_cell` has
both coordinates below `NUM_CELLS`: the cell the scan has reached carries its
own index, and a frame adds nothing to the out-of-bounds diagnostics. -/
theorem out_of_bounds_unreachable (rand : Nat → Nat) (g0 : Grid) (n : Nat) :
    (∀ y x : Nat, y < NUM_CELLS → x < NUM_CELLS →
        (scan_before (update_pass^[n] (game_init rand g0)) y x y x).pos = { x := x, y := y }
          ∧ (scan_before (update_pass^[n] (game_init rand g0)) y x y x).pos.x < NUM_CELLS
          ∧ (scan_before (update_pass^[n] (game_init rand g0)) y x y x).pos.y < NUM_CELLS)
      ∧ (∀ s : Screen,
          (frame_scan (update_pass^[n] (game_init rand g0), s)).2.diag = s.diag) := by
  have hG : PosInvariant (update_pass^[n] (game_init rand g0)) :=
    iterate_posInvariant _ (game_init_posInvariant rand g0) n
  constructor
  · intro y x hy hx
    rw [scan_before_same, hG y x hy hx]
    exact ⟨rfl, hx, hy⟩
  · intro s
    rw [frame_scan_snd _ s hG]

/-- C14: for a grid with the position invariant, the fills the scan loop of a
frame adds are those of the cells alive in the grid at the start of the frame,
in row-major order: a call is among them exactly when it is the fill, at its own
index, of a cell alive at the start, and no call occurs twice. -/
theorem frame_draws_snapshot (g : Grid) (s : Screen) (hg : PosInvariant g) :
    (frame_scan (g, s)).2.fills = s.fills ++ snapshot_fills g
      ∧ (∀ call : FillCall, call ∈ snapshot_fills g ↔
          ∃ y x : Nat, y < NUM_CELLS ∧ x < NUM_CELLS ∧ (g y x).state = 0
            ∧ call = { rect := cell_rect { x := x, y := y }, color := BLACK })
      ∧ (snapshot_fills g).Nodup := by
  refine ⟨by rw [frame_scan_snd g s hg], ?_, ?_⟩
  · intro call
    unfold snapshot_fills
    simp only [List.mem_flatMap, List.mem_range, mem_row_fills]
    constructor
    · rintro ⟨y, hy, x, hx, ha, e⟩; exact ⟨y, x, hy, hx, ha, e⟩
    · rintro ⟨y, x, hy, hx, ha, e⟩; exact ⟨y, hy, x, hx, ha, e⟩
  · unfold snapshot_fills
    rw [List.nodup_flatMap]
    refine ⟨fun y _ => row_fills_nodup g y, ?_⟩
    refine List.Pairwise.imp ?_ (List.nodup_range NUM_CELLS)
    intro a b hab
    rw [Function.onFun, List.disjoint_left]
    intro call h1 h2
    obtain ⟨x1, -, -, e1⟩ := (mem_row_fills g a call).1 h1
    obtain ⟨x2, -, -, e2⟩ := (mem_row_fills g b call).1 h2
    rw [e1] at e2
    simp only [FillCall.mk.injEq, and_true] at e2
    exact hab (cell_rect_inj x1 a x2 b e2).2

/-- Witness for C14: a frame on the block grid, started with an empty surface,
has the fills of `snapshot_fills block`, among them the one of row 1, column 2. -/
theorem frame_draws_snapshot_witness :
    PosInvariant block
      ∧ (frame_scan (block, { fills := [], diag := [] })).2.fills = [] ++ snapshot_fills block
      ∧ ({ rect := cell_rect { x := 2, y := 1 }, color := BLACK } : FillCall)
          ∈ snapshot_fills block :=
  ⟨fun _ _ _ _ => rfl,
   (frame_draws_snapshot block { fills := [], diag := [] } (fun _ _ _ _ => rfl)).1,
   ((frame_draws_snapshot block { fills := [], diag := [] } (fun _ _ _ _ => rfl)).2.1 _).2
     ⟨1, 2, by decide, by decide, by decide, rfl⟩⟩

/-! ## The alive/dead pattern alone decides (C15) -/

theorem foldl_preserves2 {α β : Type} (R : α → α → Prop) (f : α → β → α)
    (hf : ∀ a1 a2 b, R a1 a2 → R (f a1 b) (f a2 b)) (l : List β) (a1 a2 : α)
    (h : R a1 a2) : R (l.foldl f a1) (l.foldl f a2) := by
  induction l generalizing a1 a2 with
  | nil => exact h
  | cons b t ih => exact ih (f a1 b) (f a2 b) (hf a1 a2 b h)

theorem sameShape_count (g1 g2 : Grid) (pos : Position) (h : SameShape g1 g2) :
    aliveNeighCtr g1 pos = aliveNeighCtr g2 pos := by
  rw [aliveNeighCtr_eq_countP, aliveNeighCtr_eq_countP]
  unfold arr
  rw [List.countP_map, List.countP_map]
  apply List.countP_congr
  intro rc hrc
  have hb := neighbourIdx_lt pos rc hrc
  simpa using (h rc.1 rc.2 hb.1 hb.2).2

theorem game_update_sameShape (g1 g2 : Grid) (y x : Nat) (h : SameShape g1 g2) :
    SameShape (game_update g1 y x) (game_update g2 y x) := by
  intro r c hr hc
  refine ⟨by rw [game_update_pos, game_update_pos]; exact (h r c hr hc).1, ?_⟩
  by_cases e : r = y ∧ c = x
  · obtain ⟨rfl, rfl⟩ := e
    rw [game_update_state, game_update_state, (h r c hr hc).1,
      sameShape_count g1 g2 _ h]
    by_cases h2 : aliveNeighCtr g2 (g2 r c).pos = 2
    · rw [if_pos h2, if_pos h2]; exact (h r c hr hc).2
    · rw [if_neg h2, if_neg h2]
  · rw [game_update_other g1 y x r c e, game_update_other g2 y x r c e]
    exact (h r c hr hc).2

/-- C15: two grids with the same cell positions whose cells are alive at exactly
the same indices, whatever their dead bytes, have the same positions and the
same alive indices after a `game_update` call on the same cell, and after one
full row-major pass. -/
theorem pattern_decides (g1 g2 : Grid) (h : SameShape g1 g2) :
    (∀ y x : Nat, SameShape (game_update g1 y x) (game_update g2 y x))
      ∧ SameShape (update_pass g1) (update_pass g2) := by
  refine ⟨fun y x => game_update_sameShape g1 g2 y x h, ?_⟩
  unfold update_pass
  refine foldl_preserves2 SameShape update_row ?_ _ g1 g2 h
  intro a1 a2 y ha
  unfold update_row
  exact foldl_preserves2 SameShape (fun g x => game_update g y x)
    (fun b1 b2 x hb => game_update_sameShape b1 b2 y x hb) _ a1 a2 ha

/-- Witness for C15: the blinker grids with dead bytes 1 and 7 have the same shape,
and so have their passes. -/
theorem pattern_decides_witness :
    SameShape (blinker 1) (blinker 7)
      ∧ SameShape (update_pass (blinker 1)) (update_pass (blinker 7)) :=
  ⟨fun _ _ _ _ => ⟨rfl, by simp [blinker]⟩,
   (pattern_decides (blinker 1) (blinker 7) (fun _ _ _ _ => ⟨rfl, by simp [blinker]⟩)).2⟩

end CGOL
